import Mathlib

/-! The `vault monitor` command: the supervisor / relay state machine of
`MonitorCommand.Run`.

Embedding of `src/command/monitor.go`, lines 64-113.

`Run` is one supervisor thread plus the goroutines it starts with `go func()`.
The embedding is a transition system: a `State` holds the supervisor's
program point, the variables of `Run` that the goroutines share with it
(`logCh`, `stopCh`), the buffered `signalCh`, one program point per started
goroutine, and the calls made so far on the collaborators (`c.UI.Info`,
`c.UI.Error`, `client.Sys().Monitor`).  An `Action` is one scheduling choice:
which thread runs next and, at a `select`, which ready case it takes.
`step` is a partial function: `none` means the action is not enabled (the
thread is blocked there, or does not exist).

The collaborators that are not part of the file (`c.Flags().Parse`,
`c.Client`, `client.Sys().Monitor`, the operating system's signals) are the
environment `Env`.

Channels: `stopCh` is unbuffered and `Run` has no send on it, so a receive on
it is ready exactly when it is closed (`stopClosed`).  `logCh` is given by the
values its sender will deliver.  `signalCh` has a buffer of one (`sigPending`)
and is made afresh each time `START` is passed.  When several cases of a
`select` are ready Go takes any of them: each case is an action of its own.
-/

namespace Monitor

/-- The receiving end of a `chan string`: the values that will still be
delivered on it, in order, and whether the sender closes it after them. -/
structure LogChan where
  queue : List String
  closed : Bool
deriving DecidableEq, Repr

/-- The receive `<-logCh` on a variable of type `chan string`.  `none` is a
receive that blocks: on the nil channel, or on an open channel with nothing
to deliver.  A closed, drained channel yields the zero value `""`. -/
def recv : Option LogChan → Option (String × Option LogChan)
  | none => none
  | some ch =>
    match ch.queue with
    | v :: rest => some (v, some { ch with queue := rest })
    | [] => if ch.closed then some ("", some ch) else none

/-- What `client.Sys().Monitor(c.logLevel, stopCh)` hands back: the pair
`(logCh, err)`; `err = none` is Go's `err == nil`. -/
structure MonitorResult where
  logCh : Option LogChan
  err : Option String

/-- The collaborators of `Run`.  `monitor n level stop` is the result of the
call number `n` (from 0) of `client.Sys().Monitor` with severity `level` and
stop channel `stop`.  The Log Source only ever receives on the stop channel
it is given. -/
structure Env where
  parseErr : Option String
  logLevel : String
  clientErr : Option String
  monitor : Nat → String → Nat → MonitorResult

/-- One recorded call `client.Sys().Monitor(logLevel, stopCh)`. -/
structure MonitorCall where
  logLevel : String
  stopCh : Nat
deriving DecidableEq, Repr

/-- Program points of the supervisor (the body of `Run`):
`parse` line 65, `client` line 70, `start` the label `START` (line 81),
`spawn` lines 87-103 (a subscription is open, its goroutine not yet started),
`wait` the `select` of line 105, `exited c` after `return c`. -/
inductive Pc where
  | parse
  | client
  | start
  | spawn
  | wait
  | exited (code : Int)
deriving DecidableEq, Repr

/-- Program points of one relay goroutine (lines 90-103): inside the `for`
loop, or finished. -/
inductive RelayPc where
  | running
  | ended
deriving DecidableEq, Repr

/-- The case taken by the relay's `select` (line 93) in one iteration. -/
inductive Sel where
  | log (v : String)
  | stop
deriving DecidableEq, Repr

/-- One iteration of the relay's loop, lines 93-101: where the goroutine is
afterwards and the argument of the `c.UI.Info` call it made, if any. -/
def relayIter : Sel → RelayPc × Option String
  | .log v => if v = "" then (.ended, none) else (.running, some v)
  | .stop => (.ended, none)

/-- The relay goroutine run on a sequence of `select` outcomes: its final
program point and the sequence of its `c.UI.Info` calls.  Outcomes after the
goroutine has ended are not consumed. -/
def relayLoop : List Sel → RelayPc × List String
  | [] => (.running, [])
  | sel :: rest =>
    match relayIter sel with
    | (.ended, _) => (.ended, [])
    | (.running, o) => ((relayLoop rest).1, o.toList ++ (relayLoop rest).2)

/-- State of one invocation of `Run`. -/
structure State where
  pc : Pc
  logLevel : String
  logCh : Option LogChan
  chans : Nat
  stopCh : Nat
  stopClosed : Bool
  signalCh : Nat
  sigPending : Bool
  relays : List RelayPc
  infos : List String
  errors : List String
  monitorCalls : List MonitorCall
deriving DecidableEq, Repr

/-- Entry of `Run`: nothing made, nothing called. -/
def init : State :=
  { pc := .parse, logLevel := "", logCh := none, chans := 0, stopCh := 0,
    stopClosed := false, signalCh := 0, sigPending := false, relays := [],
    infos := [], errors := [], monitorCalls := [] }

/-- Scheduling choices.
`sup`: the supervisor runs its next straight-line block.
`supSignal`, `supStop`: the supervisor's `select` (line 105) takes
`case <-signalCh`, resp. `case <-stopCh`.
`relayLog i`, `relayStop i`: the `select` of goroutine `i` (line 93) takes
`case log := <-logCh`, resp. `case <-stopCh`.
`sig`: the operating system delivers `os.Interrupt` or `SIGTERM`. -/
inductive Action where
  | sup
  | supSignal
  | supStop
  | relayLog (i : Nat)
  | relayStop (i : Nat)
  | sig
deriving DecidableEq, Repr

/-- The supervisor's straight-line blocks.
* `parse` (65-68): on error `c.UI.Error(err.Error()); return 1`.
* `client` (70-78): on error `c.UI.Error(err.Error()); return 2`; else
  `stopCh := make(chan struct{})` and `defer close(stopCh)`.
* `start` (81-85): `logCh, err = client.Sys().Monitor(c.logLevel, stopCh)`; on
  error `c.UI.Error(...)`, `return 1` (the deferred close runs).
* `spawn` (87-103): a fresh buffered `signalCh`, `signal.Notify`, `go func()`. -/
def supStep (env : Env) (s : State) : Option State :=
  match s.pc with
  | .parse =>
    match env.parseErr with
    | some e => some { s with errors := s.errors ++ [e], pc := .exited 1 }
    | none => some { s with logLevel := env.logLevel, pc := .client }
  | .client =>
    match env.clientErr with
    | some e => some { s with errors := s.errors ++ [e], pc := .exited 2 }
    | none => some { s with stopCh := s.chans, chans := s.chans + 1, pc := .start }
  | .start =>
    let r := env.monitor s.monitorCalls.length s.logLevel s.stopCh
    let s1 := { s with logCh := r.logCh,
                       monitorCalls := s.monitorCalls ++ [MonitorCall.mk s.logLevel s.stopCh] }
    match r.err with
    | some e =>
      some { s1 with errors := s1.errors ++ ["Error starting monitor: " ++ e],
                     stopClosed := true, pc := .exited 1 }
    | none => some { s1 with pc := .spawn }
  | .spawn =>
    some { s with signalCh := s.chans, chans := s.chans + 1, sigPending := false,
                  relays := s.relays ++ [.running], pc := .wait }
  | .wait => none
  | .exited _ => none

/-- One scheduling step of `Run` and its goroutines.
* `supSignal` (106-107): enabled when `signalCh` holds a signal; `return 0`, and
  the deferred `close(stopCh)` runs.
* `supStop` (108-109): enabled when `stopCh` is closed; `goto START`.
* `relayLog i` (94-98): enabled when goroutine `i` is in its loop and the
  receive on `logCh` does not block.  `logCh` is the variable of `Run` that the
  closure captures, so every goroutine receives on the channel it currently
  holds.
* `relayStop i` (99-100): enabled when goroutine `i` is in its loop and `stopCh`
  is closed.  The goroutines keep running after `Run` has returned.
* `sig`: a signal reaches the `signalCh` of the current `select`, whose buffer
  holds one; it is considered only while the supervisor is at that `select`
  (a signal between `signal.Notify` and the `select` waits in the buffer, which
  is the same state). -/
def step (env : Env) (s : State) : Action → Option State
  | .sup => supStep env s
  | .supSignal =>
    if s.pc = .wait ∧ s.sigPending = true then
      some { s with sigPending := false, stopClosed := true, pc := .exited 0 }
    else none
  | .supStop =>
    if s.pc = .wait ∧ s.stopClosed = true then some { s with pc := .start } else none
  | .relayLog i =>
    if s.relays[i]? = some .running then
      match recv s.logCh with
      | none => none
      | some (v, ch) =>
        some { s with logCh := ch,
                      relays := s.relays.set i (relayIter (.log v)).1,
                      infos := s.infos ++ (relayIter (.log v)).2.toList }
    else none
  | .relayStop i =>
    if s.relays[i]? = some .running ∧ s.stopClosed = true then
      some { s with relays := s.relays.set i (relayIter .stop).1,
                    infos := s.infos ++ (relayIter .stop).2.toList }
    else none
  | .sig =>
    if s.pc = .wait then some { s with sigPending := true } else none

/-- Run a schedule; `none` if some action of it is not enabled when its turn
comes. -/
def exec (env : Env) : State → List Action → Option State
  | s, [] => some s
  | s, a :: rest =>
    match step env s a with
    | none => none
    | some s1 => exec env s1 rest

/-- The states `Run` can be in: those some schedule leads to from entry. -/
def Reachable (env : Env) (s : State) : Prop :=
  ∃ acts, exec env init acts = some s

/-- Number of relay goroutines still inside their loop. -/
def liveRelays (s : State) : Nat :=
  (s.relays.filter (fun r => r = .running)).length

/-- Result of the first call of `client.Sys().Monitor` in a run whose flags
parsed: call number 0, severity `env.logLevel`, the stop channel made first. -/
def firstOpen (env : Env) : MonitorResult :=
  env.monitor 0 env.logLevel 0

/-- The lines the first subscription will deliver (empty when the first open
returns no channel). -/
def firstLines (env : Env) : List String :=
  match (firstOpen env).logCh with
  | some ch => ch.queue
  | none => []

/-- Values still to be delivered on the channel held in `logCh`. -/
def pending : Option LogChan → List String
  | some ch => ch.queue
  | none => []

/-- State after `return 1` on a flag error `e`. -/
def sParseFail (e : String) : State :=
  { init with errors := [e], pc := .exited 1 }

/-- State at line 70, flags parsed. -/
def sClient (env : Env) : State :=
  { init with logLevel := env.logLevel, pc := .client }

/-- State after `return 2` on a client error `e`. -/
def sClientFail (env : Env) (e : String) : State :=
  { sClient env with errors := [e], pc := .exited 2 }

/-- State at the label `START` the first time it is reached. -/
def sStart (env : Env) : State :=
  { sClient env with stopCh := 0, chans := 1, pc := .start }

/-- State at line 87 after the first open succeeded. -/
def sSpawn (env : Env) : State :=
  { sStart env with logCh := (firstOpen env).logCh,
                    monitorCalls := [MonitorCall.mk env.logLevel 0], pc := .spawn }

/-- State after `return 1` on an error `e` of the first open. -/
def sOpenFail (env : Env) (e : String) : State :=
  { sSpawn env with errors := ["Error starting monitor: " ++ e],
                    stopClosed := true, pc := .exited 1 }

/-- The states from the first `select` on: the supervisor waits with `stopCh`
open, or it has returned 0 and the deferred close has run; one subscription was
opened and one goroutine started on it; what was forwarded so far, followed by
what is still to be delivered while the goroutine runs, is what the first
subscription delivers. -/
structure Streaming (env : Env) (s : State) : Prop where
  parseOk : env.parseErr = none
  clientOk : env.clientErr = none
  openOk : (firstOpen env).err = none
  level : s.logLevel = env.logLevel
  stop : s.stopCh = 0
  calls : s.monitorCalls = [MonitorCall.mk env.logLevel 0]
  noErrors : s.errors = []
  phase : (s.pc = .wait ∧ s.stopClosed = false) ∨ (s.pc = .exited 0 ∧ s.stopClosed = true)
  relay : s.relays = [.running] ∨ s.relays = [.ended]
  feed : s.relays = [.running] → s.infos ++ pending s.logCh = firstLines env
  sent : s.infos <+: firstLines env
  noMarker : "" ∉ s.infos

/-- Invariant of `Run`: every reachable state is one of these. -/
def Inv (env : Env) (s : State) : Prop :=
  s = init ∨
  (∃ e, env.parseErr = some e ∧ s = sParseFail e) ∨
  (env.parseErr = none ∧ s = sClient env) ∨
  (∃ e, env.parseErr = none ∧ env.clientErr = some e ∧ s = sClientFail env e) ∨
  (env.parseErr = none ∧ env.clientErr = none ∧ s = sStart env) ∨
  (env.parseErr = none ∧ env.clientErr = none ∧ (firstOpen env).err = none ∧ s = sSpawn env) ∨
  (∃ e, env.parseErr = none ∧ env.clientErr = none ∧ (firstOpen env).err = some e ∧
    s = sOpenFail env e) ∨
  Streaming env s

/-- A Log Source whose subscription number `n` delivers `feeds n` and then
stays open and silent; every open succeeds. -/
def sourceOf (feeds : List (List String)) : Nat → String → Nat → MonitorResult :=
  fun n _ _ => { logCh := some { queue := feeds.getD n [], closed := false }, err := none }

/-- Flags parsed with severity `level`, a client, and the Log Source
`sourceOf feeds`. -/
def envOf (level : String) (feeds : List (List String)) : Env :=
  { parseErr := none, logLevel := level, clientErr := none, monitor := sourceOf feeds }

/-- The schedule that brings `Run` from entry to its first `select`. -/
def toWait : List Action := [.sup, .sup, .sup, .sup]

/-- The schedule of one reconnect: the supervisor takes `case <-stopCh`, calls
`Monitor` at `START`, and starts the goroutine. -/
def reopen : List Action := [.supStop, .sup, .sup]

/-- The schedule of `n` reconnects in a row. -/
def reopens : Nat → List Action
  | 0 => []
  | n + 1 => reopen ++ reopens n

/-- A Log Source whose only subscription delivers `"x"` and is then closed by
the sender. -/
def closedEnv : Env :=
  { parseErr := none, logLevel := "INFO", clientErr := none,
    monitor := fun _ _ _ => { logCh := some { queue := ["x"], closed := true }, err := none } }

/-- The state of `Run` under `closedEnv` once the goroutine has received `"x"`
and then the zero value of the closed channel. -/
def afterClosed : State :=
  { pc := .wait, logLevel := "INFO", logCh := some { queue := [], closed := true },
    chans := 2, stopCh := 0, stopClosed := false, signalCh := 1, sigPending := false,
    relays := [.ended], infos := ["x"], errors := [],
    monitorCalls := [MonitorCall.mk "INFO" 0] }

/-- The state at the first `select` when the subscription's first value will
be the empty string. -/
def atWaitC3 : State :=
  { pc := .wait, logLevel := "INFO", logCh := some { queue := [""], closed := false },
    chans := 2, stopCh := 0, stopClosed := false, signalCh := 1, sigPending := false,
    relays := [.running], infos := [], errors := [],
    monitorCalls := [MonitorCall.mk "INFO" 0] }

/-- A Log Source whose first subscription ends at once (its first value is
the empty string) and whose second subscription would deliver `"c"`; flags
parsed with severity `"DEBUG"`. -/
def endedEnv : Env :=
  envOf "DEBUG" [[""], ["c"]]

/-- The state of `Run` under `endedEnv` once the goroutine has received the
marker and ended: the supervisor is at the `select` of line 105. -/
def streamEnded : State :=
  { pc := .wait, logLevel := "DEBUG", logCh := some { queue := [], closed := false },
    chans := 2, stopCh := 0, stopClosed := false, signalCh := 1, sigPending := false,
    relays := [.ended], infos := [], errors := [],
    monitorCalls := [MonitorCall.mk "DEBUG" 0] }

/-- The state at the `select` of line 105 after the subscription delivered
`"a"` and the empty string, the goroutine ended, and a signal arrived. -/
def raced : State :=
  { pc := .wait, logLevel := "INFO", logCh := some { queue := [], closed := false },
    chans := 2, stopCh := 0, stopClosed := false, signalCh := 1, sigPending := true,
    relays := [.ended], infos := ["a"], errors := [],
    monitorCalls := [MonitorCall.mk "INFO" 0] }

/-- Flags parse, the client is built, and every open is refused with the
error `"connection refused"`. -/
def refusedEnv : Env :=
  { parseErr := none, logLevel := "BOGUS", clientErr := none,
    monitor := fun _ _ _ => { logCh := none, err := some "connection refused" } }

/-- Flags parse and the client cannot be built. -/
def noClientEnv : Env :=
  { parseErr := none, logLevel := "INFO", clientErr := some "bad address",
    monitor := sourceOf [] }

/-- The scenario of the end-to-end claim: severity `"DEBUG"`, a first
subscription delivering `"a"`, `"b"`, `""`, a second one delivering `"c"`,
`""`. -/
def scenarioEnv : Env :=
  envOf "DEBUG" [["a", "b", ""], ["c", ""]]

/-- The state in which the scenario ends: both lines of the first
subscription forwarded, its marker received, the signal taken. -/
def scenarioEnd : State :=
  { pc := .exited 0, logLevel := "DEBUG", logCh := some { queue := [], closed := false },
    chans := 2, stopCh := 0, stopClosed := true, signalCh := 1, sigPending := false,
    relays := [.ended], infos := ["a", "b"], errors := [],
    monitorCalls := [MonitorCall.mk "DEBUG" 0] }

/-- The scenario's schedule up to the signal: the supervisor reaches its
`select` and the goroutine receives `"a"`, `"b"` and the marker. -/
def scenarioFeed : List Action :=
  toWait ++ [.relayLog 0, .relayLog 0, .relayLog 0]

/-- The state at the `select` of line 105 after the goroutine received the
first of three markers. -/
def markers : State :=
  { pc := .wait, logLevel := "INFO", logCh := some { queue := ["", ""], closed := false },
    chans := 2, stopCh := 0, stopClosed := false, signalCh := 1, sigPending := false,
    relays := [.ended], infos := [], errors := [],
    monitorCalls := [MonitorCall.mk "INFO" 0] }

/-! ## Lemmas on the embedding -/

theorem exec_append (env : Env) (s : State) (xs ys : List Action) :
    exec env s (xs ++ ys) = (exec env s xs).bind (fun t => exec env t ys) := by
  induction xs generalizing s with
  | nil => simp [exec]
  | cons a rest ih =>
    simp only [List.cons_append, exec]
    cases step env s a with
    | none => simp
    | some t => simpa using ih t

theorem pending_recv {c : Option LogChan} {v : String} {c1 : Option LogChan}
    (h : recv c = some (v, c1)) :
    pending c = v :: pending c1 ∨ (v = "" ∧ c1 = c) := by
  cases c with
  | none => simp [recv] at h
  | some ch =>
    cases hq : ch.queue with
    | nil =>
      simp only [recv, hq] at h
      split at h
      · simp only [Option.some.injEq, Prod.mk.injEq] at h
        exact Or.inr ⟨h.1.symm, h.2.symm⟩
      · simp at h
    | cons w rest =>
      simp only [recv, hq, Option.some.injEq, Prod.mk.injEq] at h
      obtain ⟨h1, h2⟩ := h
      subst h1
      subst h2
      exact Or.inl (by simp [pending, hq])

theorem relay_index {rs : List RelayPc} {i : Nat}
    (hr : rs = [.running] ∨ rs = [.ended]) (hi : rs[i]? = some .running) :
    rs = [.running] ∧ i = 0 := by
  rcases hr with hr | hr <;> subst hr <;> cases i <;> simp at hi ⊢

theorem streaming_step {env : Env} {s t : State} {a : Action}
    (hs : Streaming env s) (h : step env s a = some t) : Streaming env t := by
  cases a with
  | sup =>
    rcases hs.phase with ⟨hp, _⟩ | ⟨hp, _⟩ <;> simp [step, supStep, hp] at h
  | supSignal =>
    simp only [step] at h
    split at h
    · simp only [Option.some.injEq] at h
      subst h
      exact ⟨hs.parseOk, hs.clientOk, hs.openOk, hs.level, hs.stop, hs.calls, hs.noErrors,
        Or.inr ⟨rfl, rfl⟩, hs.relay, hs.feed, hs.sent, hs.noMarker⟩
    · simp at h
  | supStop =>
    rcases hs.phase with ⟨hp, hc⟩ | ⟨hp, hc⟩ <;> simp [step, hp, hc] at h
  | sig =>
    simp only [step] at h
    split at h
    · simp only [Option.some.injEq] at h
      subst h
      exact ⟨hs.parseOk, hs.clientOk, hs.openOk, hs.level, hs.stop, hs.calls, hs.noErrors,
        hs.phase, hs.relay, hs.feed, hs.sent, hs.noMarker⟩
    · simp at h
  | relayStop i =>
    simp only [step] at h
    split at h
    · rename_i hg
      obtain ⟨hrun, hi⟩ := relay_index hs.relay hg.1
      simp only [Option.some.injEq] at h
      subst h
      subst hi
      refine ⟨hs.parseOk, hs.clientOk, hs.openOk, hs.level, hs.stop, hs.calls, hs.noErrors,
        hs.phase, Or.inr ?_, ?_, ?_, ?_⟩
      · simp [hrun, relayIter]
      · simp [hrun, relayIter]
      · simpa [relayIter] using hs.sent
      · simpa [relayIter] using hs.noMarker
    · simp at h
  | relayLog i =>
    simp only [step] at h
    split at h
    · rename_i hg
      obtain ⟨hrun, hi⟩ := relay_index hs.relay hg
      subst hi
      split at h
      · simp at h
      · rename_i v ch hrecv
        simp only [Option.some.injEq] at h
        subst h
        have hfeed := hs.feed hrun
        by_cases hv : v = ""
        · subst hv
          refine ⟨hs.parseOk, hs.clientOk, hs.openOk, hs.level, hs.stop, hs.calls,
            hs.noErrors, hs.phase, Or.inr ?_, ?_, ?_, ?_⟩
          · simp [hrun, relayIter]
          · simp [hrun, relayIter]
          · simpa [relayIter] using hs.sent
          · simpa [relayIter] using hs.noMarker
        · have hp : pending s.logCh = v :: pending ch := by
            rcases pending_recv hrecv with hp | ⟨hp, _⟩
            · exact hp
            · exact absurd hp hv
          have hfeed2 : (s.infos ++ [v]) ++ pending ch = firstLines env := by
            rw [← hfeed, hp]; simp
          refine ⟨hs.parseOk, hs.clientOk, hs.openOk, hs.level, hs.stop, hs.calls,
            hs.noErrors, hs.phase, Or.inl ?_, ?_, ?_, ?_⟩
          · simp [hrun, relayIter, hv]
          · intro _
            simpa [relayIter, hv] using hfeed2
          · simp only [relayIter, hv, if_false, Option.toList]
            exact ⟨pending ch, hfeed2⟩
          · have := hs.noMarker
            simp only [relayIter, hv, if_false, Option.toList, List.mem_append,
              List.mem_singleton, not_or]
            exact ⟨this, fun h => hv h.symm⟩
    · simp at h

theorem inv_step {env : Env} {s t : State} {a : Action}
    (hs : Inv env s) (h : step env s a = some t) : Inv env t := by
  rcases hs with hs | ⟨e, he, hs⟩ | ⟨hp, hs⟩ | ⟨e, hp, hc, hs⟩ | ⟨hp, hc, hs⟩ |
    ⟨hp, hc, ho, hs⟩ | ⟨e, hp, hc, ho, hs⟩ | hs
  · subst hs
    cases a <;> simp [step, supStep, init] at h
    cases hpe : env.parseErr with
    | none =>
      simp only [hpe] at h
      exact Or.inr (Or.inr (Or.inl ⟨hpe, by cases h; rfl⟩))
    | some e =>
      simp only [hpe] at h
      exact Or.inr (Or.inl ⟨e, hpe, by cases h; rfl⟩)
  · subst hs
    cases a <;> simp [step, supStep, sParseFail, init] at h
  · subst hs
    cases a <;> simp [step, supStep, sClient, init] at h
    cases hce : env.clientErr with
    | none =>
      simp only [hce] at h
      exact Or.inr (Or.inr (Or.inr (Or.inr (Or.inl ⟨hp, hce, by cases h; rfl⟩))))
    | some e =>
      simp only [hce] at h
      exact Or.inr (Or.inr (Or.inr (Or.inl ⟨e, hp, hce, by cases h; rfl⟩)))
  · subst hs
    cases a <;> simp [step, supStep, sClientFail, sClient, init] at h
  · subst hs
    cases a <;> simp [step, supStep, sStart, sClient, init] at h
    cases hoe : (firstOpen env).err with
    | none =>
      simp only [firstOpen] at hoe
      simp only [hoe] at h
      refine Or.inr (Or.inr (Or.inr (Or.inr (Or.inr (Or.inl ⟨hp, hc, hoe, ?_⟩)))))
      cases h; rfl
    | some e =>
      simp only [firstOpen] at hoe
      simp only [hoe] at h
      refine Or.inr (Or.inr (Or.inr (Or.inr (Or.inr (Or.inr (Or.inl ⟨e, hp, hc, hoe, ?_⟩))))))
      cases h; rfl
  · subst hs
    cases a <;> simp [step, supStep, sSpawn, sStart, sClient, init] at h
    refine Or.inr (Or.inr (Or.inr (Or.inr (Or.inr (Or.inr (Or.inr ?_))))))
    subst h
    refine ⟨hp, hc, ho, rfl, rfl, rfl, rfl, Or.inl ⟨rfl, rfl⟩, Or.inl rfl, ?_, ?_, ?_⟩
    · intro _
      simp [pending, firstLines, firstOpen]
    · simp
    · simp
  · subst hs
    cases a <;> simp [step, supStep, sOpenFail, sSpawn, sStart, sClient, init] at h
  · exact Or.inr (Or.inr (Or.inr (Or.inr (Or.inr (Or.inr (Or.inr (streaming_step hs h)))))))

theorem inv_exec {env : Env} {acts : List Action} {s t : State}
    (hs : Inv env s) (h : exec env s acts = some t) : Inv env t := by
  induction acts generalizing s with
  | nil =>
    simp only [exec, Option.some.injEq] at h
    exact h ▸ hs
  | cons a rest ih =>
    simp only [exec] at h
    cases hst : step env s a with
    | none => simp [hst] at h
    | some u =>
      simp only [hst] at h
      exact ih (inv_step hs hst) h

theorem inv_reachable {env : Env} {s : State} (h : Reachable env s) : Inv env s := by
  obtain ⟨acts, ha⟩ := h
  exact inv_exec (Or.inl rfl) ha

theorem relayLoop_lines (lines : List String) (h : ∀ l ∈ lines, l ≠ "") :
    relayLoop (lines.map Sel.log) = (.running, lines) := by
  induction lines with
  | nil => rfl
  | cons v rest ih =>
    have hv : v ≠ "" := h v (by simp)
    have hrest := ih (fun l hl => h l (by simp [hl]))
    simp [relayLoop, relayIter, hv, hrest]

theorem relayLoop_noMarker (sels : List Sel) : "" ∉ (relayLoop sels).2 := by
  induction sels with
  | nil => simp [relayLoop]
  | cons sel rest ih =>
    cases sel with
    | stop => simp [relayLoop, relayIter]
    | log v =>
      by_cases hv : v = ""
      · simp [relayLoop, relayIter, hv]
      · simp only [relayLoop, relayIter, hv, if_false, Option.toList, List.singleton_append,
          List.mem_cons, not_or]
        exact ⟨fun h => hv h.symm, ih⟩

theorem exec_relay_lines (env : Env) (lines : List String) (h : ∀ l ∈ lines, l ≠ "")
    (c : Bool) (s : State) (hr : s.relays = [.running])
    (hl : s.logCh = some { queue := lines, closed := c }) :
    ∃ t, exec env s (List.replicate lines.length (.relayLog 0)) = some t ∧
      t.infos = s.infos ++ lines ∧ t.relays = [.running] ∧
      t.logCh = some { queue := [], closed := c } ∧
      t.pc = s.pc ∧ t.stopClosed = s.stopClosed ∧ t.monitorCalls = s.monitorCalls := by
  induction lines generalizing s with
  | nil => exact ⟨s, by simp [exec], by simp, hr, hl, rfl, rfl, rfl⟩
  | cons v rest ih =>
    have hv : v ≠ "" := h v (by simp)
    have hstep : step env s (.relayLog 0) =
        some { s with logCh := some { queue := rest, closed := c },
                      relays := [.running], infos := s.infos ++ [v] } := by
      simp [step, hr, hl, recv, relayIter, hv]
    obtain ⟨t, ht, hi, hrel, hch, hpc, hsc, hmc⟩ :=
      ih (fun l hl => h l (by simp [hl]))
        { s with logCh := some { queue := rest, closed := c },
                 relays := [.running], infos := s.infos ++ [v] } rfl rfl
    refine ⟨t, ?_, ?_, hrel, hch, hpc, hsc, hmc⟩
    · simp only [List.length_cons, List.replicate_succ, exec, hstep]
      exact ht
    · simpa using hi

theorem exec_toWait (env : Env) (hp : env.parseErr = none) (hc : env.clientErr = none)
    (ho : (firstOpen env).err = none) :
    exec env init toWait =
      some { sSpawn env with signalCh := 1, chans := 2, relays := [.running], pc := .wait } := by
  simp only [firstOpen] at ho
  simp [exec, toWait, step, supStep, init, hp, hc, ho, sSpawn, sStart, sClient, firstOpen]

theorem streaming_exec {env : Env} {acts : List Action} {s t : State}
    (hs : Streaming env s) (h : exec env s acts = some t) : Streaming env t := by
  induction acts generalizing s with
  | nil =>
    simp only [exec, Option.some.injEq] at h
    exact h ▸ hs
  | cons a rest ih =>
    simp only [exec] at h
    cases hst : step env s a with
    | none => simp [hst] at h
    | some u =>
      simp only [hst] at h
      exact ih (streaming_step hs hst) h

theorem streaming_supStop {env : Env} {s : State} (hs : Streaming env s) :
    step env s .supStop = none := by
  rcases hs.phase with ⟨hp, hc⟩ | ⟨hp, hc⟩ <;> simp [step, hp, hc]

theorem streaming_of_relay {env : Env} {s : State} {i : Nat} {r : RelayPc}
    (hs : Inv env s) (hi : s.relays[i]? = some r) : Streaming env s := by
  rcases hs with hs | ⟨e, he, hs⟩ | ⟨_, hs⟩ | ⟨e, _, _, hs⟩ | ⟨_, _, hs⟩ |
    ⟨_, _, _, hs⟩ | ⟨e, _, _, _, hs⟩ | hs
  all_goals first
    | exact hs
    | (subst hs; simp [init, sParseFail, sClient, sClientFail, sStart, sSpawn, sOpenFail] at hi)

theorem inv_supStop {env : Env} {s : State} (hs : Inv env s) :
    step env s .supStop = none := by
  rcases hs with hs | ⟨e, he, hs⟩ | ⟨_, hs⟩ | ⟨e, _, _, hs⟩ | ⟨_, _, hs⟩ |
    ⟨_, _, _, hs⟩ | ⟨e, _, _, _, hs⟩ | hs
  all_goals first
    | exact streaming_supStop hs
    | (subst hs; simp [step, init, sParseFail, sClient, sClientFail, sStart, sSpawn, sOpenFail])

theorem exited_step {env : Env} {s t : State} {a : Action} {c : Int}
    (hs : s.pc = .exited c) (h : step env s a = some t) :
    t.pc = .exited c ∧ t.monitorCalls = s.monitorCalls := by
  cases a with
  | sup => simp [step, supStep, hs] at h
  | supSignal => simp [step, hs] at h
  | supStop => simp [step, hs] at h
  | sig => simp [step, hs] at h
  | relayStop i =>
    simp only [step] at h
    split at h
    · simp only [Option.some.injEq] at h
      subst h
      exact ⟨hs, rfl⟩
    · simp at h
  | relayLog i =>
    simp only [step] at h
    split at h
    · split at h
      · simp at h
      · simp only [Option.some.injEq] at h
        subst h
        exact ⟨hs, rfl⟩
    · simp at h

theorem exited_exec {env : Env} {acts : List Action} {s t : State} {c : Int}
    (hs : s.pc = .exited c) (h : exec env s acts = some t) :
    t.pc = .exited c ∧ t.monitorCalls = s.monitorCalls := by
  induction acts generalizing s with
  | nil =>
    simp only [exec, Option.some.injEq] at h
    subst h
    exact ⟨hs, rfl⟩
  | cons a rest ih =>
    simp only [exec] at h
    cases hst : step env s a with
    | none => simp [hst] at h
    | some u =>
      simp only [hst] at h
      obtain ⟨h1, h2⟩ := exited_step hs hst
      obtain ⟨h3, h4⟩ := ih h1 h
      exact ⟨h3, h4.trans h2⟩

theorem inv_calls_le {env : Env} {s : State} (hs : Inv env s) :
    s.monitorCalls.length ≤ 1 ∧ s.relays.length ≤ s.monitorCalls.length ∧
    liveRelays s ≤ 1 ∧ (s.pc = .wait → s.relays.length = 1 ∧ s.monitorCalls.length = 1) := by
  rcases hs with hs | ⟨e, he, hs⟩ | ⟨_, hs⟩ | ⟨e, _, _, hs⟩ | ⟨_, _, hs⟩ |
    ⟨_, _, _, hs⟩ | ⟨e, _, _, _, hs⟩ | hs
  all_goals first
    | (subst hs
       simp [init, sParseFail, sClient, sClientFail, sStart, sSpawn, sOpenFail, liveRelays])
    | (rcases hs.relay with hr | hr <;> simp [hs.calls, hr, liveRelays])

theorem inv_stop_closed {env : Env} {s : State} (hs : Inv env s) (hc : s.stopClosed = true) :
    ∃ c, s.pc = .exited c := by
  rcases hs with hs | ⟨e, he, hs⟩ | ⟨_, hs⟩ | ⟨e, _, _, hs⟩ | ⟨_, _, hs⟩ |
    ⟨_, _, _, hs⟩ | ⟨e, _, _, _, hs⟩ | hs
  all_goals first
    | (subst hs
       simp [init, sParseFail, sClient, sClientFail, sStart, sSpawn, sOpenFail] at hc ⊢)
    | (rcases hs.phase with ⟨_, h⟩ | ⟨h, _⟩
       · rw [h] at hc; cases hc
       · exact ⟨0, h⟩)

theorem close_only_on_return {env : Env} {s t : State} {a : Action}
    (h : step env s a = some t) (ho : s.stopClosed = false) (hc : t.stopClosed = true) :
    (a = .sup ∨ a = .supSignal) ∧ ∃ c, t.pc = .exited c := by
  cases a with
  | sup =>
    refine ⟨Or.inl rfl, ?_⟩
    simp only [step, supStep] at h
    split at h
    · split at h <;> simp only [Option.some.injEq] at h <;> subst h <;> simp_all
    · split at h <;> simp only [Option.some.injEq] at h <;> subst h <;> simp_all
    · split at h <;> simp only [Option.some.injEq] at h <;> subst h <;> simp_all
    · simp only [Option.some.injEq] at h; subst h; simp_all
    · simp at h
    · simp at h
  | supSignal =>
    refine ⟨Or.inr rfl, ?_⟩
    simp only [step] at h
    split at h
    · simp only [Option.some.injEq] at h; subst h; exact ⟨0, rfl⟩
    · simp at h
  | supStop =>
    simp only [step] at h
    split at h
    · simp_all
    · simp at h
  | sig =>
    simp only [step] at h
    split at h
    · simp only [Option.some.injEq] at h; subst h; simp_all
    · simp at h
  | relayStop i =>
    simp only [step] at h
    split at h
    · simp_all
    · simp at h
  | relayLog i =>
    simp only [step] at h
    split at h
    · split at h
      · simp at h
      · simp only [Option.some.injEq] at h; subst h; simp_all
    · simp at h

theorem return_zero_only_by_signal {env : Env} {s t : State} {a : Action}
    (h : step env s a = some t) (hz : t.pc = .exited 0) :
    s.pc = .exited 0 ∨ a = .supSignal := by
  cases a with
  | sup =>
    simp only [step, supStep] at h
    split at h
    · split at h <;> simp only [Option.some.injEq] at h <;> subst h <;> simp at hz
    · split at h <;> simp only [Option.some.injEq] at h <;> subst h <;> simp at hz
    · split at h <;> simp only [Option.some.injEq] at h <;> subst h <;> simp at hz
    · simp only [Option.some.injEq] at h; subst h; simp at hz
    · simp at h
    · simp at h
  | supSignal => exact Or.inr rfl
  | supStop =>
    simp only [step] at h
    split at h
    · simp only [Option.some.injEq] at h; subst h; simp at hz
    · simp at h
  | sig =>
    simp only [step] at h
    split at h
    · simp only [Option.some.injEq] at h; subst h; simp_all
    · simp at h
  | relayStop i =>
    simp only [step] at h
    split at h
    · simp only [Option.some.injEq] at h; subst h; exact Or.inl hz
    · simp at h
  | relayLog i =>
    simp only [step] at h
    split at h
    · split at h
      · simp at h
      · simp only [Option.some.injEq] at h; subst h; exact Or.inl hz
    · simp at h

/-! ## The claims -/

/-- C1: the relay goroutine forwards every line once, unchanged and in order.
For every finite sequence `lines` without the empty string, received with
`stopCh` open (so that each `select` takes `case log := <-logCh`), the
goroutine's `c.UI.Info` calls are exactly `lines` and it is still in its loop.
Inside `Run`: when the first subscription delivers `lines`, the schedule that
lets the goroutine receive them all ends with the sink holding exactly `lines`
and `stopCh` open, and in no reachable state has the sink received anything
but an initial segment of `lines`. -/
theorem relay_forwards_in_order (env : Env) (lines : List String) (c : Bool)
    (hne : ∀ l ∈ lines, l ≠ "")
    (hp : env.parseErr = none) (hc : env.clientErr = none)
    (ho : (firstOpen env).err = none)
    (hch : (firstOpen env).logCh = some { queue := lines, closed := c }) :
    relayLoop (lines.map Sel.log) = (.running, lines) ∧
    (∃ t, exec env init (toWait ++ List.replicate lines.length (.relayLog 0)) = some t ∧
      t.infos = lines ∧ t.stopClosed = false ∧ t.relays = [.running]) ∧
    (∀ s, Reachable env s → s.infos <+: lines) := by
  refine ⟨relayLoop_lines lines hne, ?_, ?_⟩
  · obtain ⟨t, ht, hi, hrel, _, _, hsc, _⟩ :=
      exec_relay_lines env lines hne c
        { sSpawn env with signalCh := 1, chans := 2, relays := [.running], pc := .wait }
        rfl hch
    refine ⟨t, ?_, ?_, ?_, hrel⟩
    · rw [exec_append, exec_toWait env hp hc ho]
      exact ht
    · simpa [sSpawn, sStart, sClient, init] using hi
    · simpa [sSpawn, sStart, sClient, init] using hsc
  · intro s hs
    have hfl : firstLines env = lines := by simp [firstLines, firstOpen] at hch ⊢; simp [hch]
    rcases inv_reachable hs with hs | ⟨e, he, hs⟩ | ⟨_, hs⟩ | ⟨e, _, _, hs⟩ | ⟨_, _, hs⟩ |
      ⟨_, _, _, hs⟩ | ⟨e, _, _, _, hs⟩ | hs
    all_goals first
      | (subst hs; simp [init, sParseFail, sClient, sClientFail, sStart, sSpawn, sOpenFail])
      | exact hfl ▸ hs.sent

/-- Witness of C1 -/
theorem relay_forwards_in_order_witness :
    relayLoop (["a", "b"].map Sel.log) = (.running, ["a", "b"]) ∧
    (∃ t, exec (envOf "INFO" [["a", "b"]]) init
        (toWait ++ List.replicate ["a", "b"].length (.relayLog 0)) = some t ∧
      t.infos = ["a", "b"] ∧ t.stopClosed = false ∧ t.relays = [.running]) ∧
    (∀ s, Reachable (envOf "INFO" [["a", "b"]]) s → s.infos <+: ["a", "b"]) :=
  relay_forwards_in_order (envOf "INFO" [["a", "b"]]) ["a", "b"] false
    (by decide) rfl rfl rfl rfl

/-- C2: the end-of-stream marker is never forwarded.  Whatever the relay
goroutine's `select` takes, in whatever order (values received on `logCh`,
empty strings among them, the zero value of a closed channel included, or
`stopCh`), none of its `c.UI.Info` calls has the empty string as argument; and
in every reachable state of `Run`, for every Log Source, the sink has not
received the empty string. -/
theorem marker_never_forwarded :
    (∀ sels : List Sel, "" ∉ (relayLoop sels).2) ∧
    (∀ (env : Env) (s : State), Reachable env s → "" ∉ s.infos) := by
  refine ⟨relayLoop_noMarker, ?_⟩
  intro env s hs
  rcases inv_reachable hs with hs | ⟨e, he, hs⟩ | ⟨_, hs⟩ | ⟨e, _, _, hs⟩ | ⟨_, _, hs⟩ |
    ⟨_, _, _, hs⟩ | ⟨e, _, _, _, hs⟩ | hs
  all_goals first
    | (subst hs; simp [init, sParseFail, sClient, sClientFail, sStart, sSpawn, sOpenFail])
    | exact hs.noMarker

/-- Witness of C2 -/
theorem marker_never_forwarded_witness :
    "" ∉ (relayLoop [.log "x", .log "", .log "y"]).2 ∧ "" ∉ afterClosed.infos :=
  ⟨marker_never_forwarded.1 [.log "x", .log "", .log "y"],
   marker_never_forwarded.2 closedEnv afterClosed
     ⟨toWait ++ [.relayLog 0, .relayLog 0], by decide⟩⟩

/-- C3, evaluated on the code: when a relay goroutine of a reachable state
receives the empty string, it ends without forwarding it, and it leaves
`stopCh` and `signalCh` as they were: the supervisor's `case <-stopCh` is not
enabled in the state it leaves, nor in any state that follows, and no further
`client.Sys().Monitor` call is made.  The relay ends; it signals nothing. -/
theorem marker_ends_relay_without_signal (env : Env) (s : State) (i : Nat)
    (ch : Option LogChan) (hr : Reachable env s)
    (hrun : s.relays[i]? = some .running) (hrecv : recv s.logCh = some ("", ch)) :
    ∃ t, step env s (.relayLog i) = some t ∧ t.relays[i]? = some .ended ∧
      t.infos = s.infos ∧ t.stopClosed = s.stopClosed ∧ t.sigPending = s.sigPending ∧
      t.pc = s.pc ∧
      ∀ acts u, exec env t acts = some u →
        step env u .supStop = none ∧ u.monitorCalls = s.monitorCalls := by
  have hs := streaming_of_relay (inv_reachable hr) hrun
  obtain ⟨hrel, hi⟩ := relay_index hs.relay hrun
  subst hi
  have hstep : step env s (.relayLog 0) =
      some { s with logCh := ch, relays := [.ended] } := by
    simp [step, hrel, hrecv, relayIter]
  refine ⟨_, hstep, by simp, rfl, rfl, rfl, rfl, ?_⟩
  intro acts u hu
  have hsu := streaming_exec (streaming_step hs hstep) hu
  exact ⟨streaming_supStop hsu, by rw [hsu.calls, hs.calls]⟩

/-- Witness of C3's evaluation -/
theorem marker_ends_relay_without_signal_witness :
    ∃ t, step (envOf "INFO" [[""]]) atWaitC3 (.relayLog 0) = some t ∧
      t.relays[0]? = some .ended ∧
      t.infos = atWaitC3.infos ∧ t.stopClosed = atWaitC3.stopClosed ∧
      t.sigPending = atWaitC3.sigPending ∧ t.pc = atWaitC3.pc ∧
      ∀ acts u, exec (envOf "INFO" [[""]]) t acts = some u →
        step (envOf "INFO" [[""]]) u .supStop = none ∧
        u.monitorCalls = atWaitC3.monitorCalls :=
  marker_ends_relay_without_signal (envOf "INFO" [[""]]) atWaitC3 0
    (some { queue := [], closed := false }) ⟨toWait, rfl⟩ rfl rfl

/-- C4, evaluated on the code: no subscription is reopened.  In every
reachable state in which the supervisor waits at its `select`, whatever the
Log Source has delivered (end-of-stream markers included), exactly one
`client.Sys().Monitor` call has been made, with the current `c.logLevel` and
`stopCh`; the reconnect schedule (take `case <-stopCh`, call `Monitor` at
`START`, start the goroutine) is not enabled, for any number of reconnects;
and along every schedule that follows the list of `Monitor` calls stays that
one call and `case <-stopCh` stays disabled. -/
theorem stream_end_never_reopens (env : Env) (s : State) (hr : Reachable env s)
    (hw : s.pc = .wait) :
    s.monitorCalls = [MonitorCall.mk s.logLevel s.stopCh] ∧
    (∀ n, exec env s (reopens (n + 1)) = none) ∧
    (∀ acts t, exec env s acts = some t →
      t.monitorCalls = s.monitorCalls ∧ step env t .supStop = none) := by
  have hs : Streaming env s := by
    rcases inv_reachable hr with hs | ⟨e, he, hs⟩ | ⟨_, hs⟩ | ⟨e, _, _, hs⟩ | ⟨_, _, hs⟩ |
      ⟨_, _, _, hs⟩ | ⟨e, _, _, _, hs⟩ | hs
    all_goals first
      | exact hs
      | (subst hs
         simp [init, sParseFail, sClient, sClientFail, sStart, sSpawn, sOpenFail] at hw)
  refine ⟨by rw [hs.calls, hs.level, hs.stop], ?_, ?_⟩
  · intro n
    simp [reopens, reopen, exec, streaming_supStop hs]
  · intro acts t ht
    have hst := streaming_exec hs ht
    exact ⟨by rw [hst.calls, hs.calls], streaming_supStop hst⟩

/-- Witness of C4's evaluation -/
theorem stream_end_never_reopens_witness :
    streamEnded.monitorCalls = [MonitorCall.mk streamEnded.logLevel streamEnded.stopCh] ∧
    (∀ n, exec endedEnv streamEnded (reopens (n + 1)) = none) ∧
    (∀ acts t, exec endedEnv streamEnded acts = some t →
      t.monitorCalls = streamEnded.monitorCalls ∧ step endedEnv t .supStop = none) :=
  stream_end_never_reopens endedEnv streamEnded ⟨toWait ++ [.relayLog 0], by decide⟩ rfl

/-- C5: cancellation is final.  From every state in which the supervisor waits
and a signal is in `signalCh` (whatever the streams, the relay goroutines and
`stopCh` are doing, a ready `case <-stopCh` included), taking
`case <-signalCh` makes `Run` return 0, and along every schedule that follows
`Run` stays returned with code 0 and `client.Sys().Monitor` is not called
again. -/
theorem cancel_is_final (env : Env) (s : State) (hw : s.pc = .wait)
    (hsig : s.sigPending = true) :
    ∃ t, step env s .supSignal = some t ∧ t.pc = .exited 0 ∧
      t.monitorCalls = s.monitorCalls ∧
      ∀ acts u, exec env t acts = some u →
        u.pc = .exited 0 ∧ u.monitorCalls = s.monitorCalls := by
  refine ⟨{ s with sigPending := false, stopClosed := true, pc := .exited 0 }, ?_, rfl, rfl, ?_⟩
  · simp [step, hw, hsig]
  · intro acts u hu
    exact exited_exec
      (s := { s with sigPending := false, stopClosed := true, pc := .exited 0 }) rfl hu

/-- Witness of C5 -/
theorem cancel_is_final_witness :
    ∃ t, step (envOf "INFO" [["a", ""]]) raced .supSignal = some t ∧ t.pc = .exited 0 ∧
      t.monitorCalls = raced.monitorCalls ∧
      ∀ acts u, exec (envOf "INFO" [["a", ""]]) t acts = some u →
        u.pc = .exited 0 ∧ u.monitorCalls = raced.monitorCalls :=
  cancel_is_final (envOf "INFO" [["a", ""]]) raced rfl rfl

/-- C6: a failed first open is fatal.  When the first call of
`client.Sys().Monitor` returns the error `e`, the supervisor's three blocks
run to `return 1` with exactly one `c.UI.Error` call (the formatted error), no
goroutine started, no `c.UI.Info` call and one `Monitor` call; nothing is
enabled after that; and in every reachable state there is no goroutine, no
`c.UI.Info` call, at most one `Monitor` call, at most one `c.UI.Error` call,
and a return code, if any, of 1. -/
theorem open_error_is_fatal (env : Env) (e : String)
    (hp : env.parseErr = none) (hc : env.clientErr = none)
    (ho : (firstOpen env).err = some e) :
    (∃ t, exec env init [.sup, .sup, .sup] = some t ∧ t.pc = .exited 1 ∧
      t.errors = ["Error starting monitor: " ++ e] ∧ t.relays = [] ∧ t.infos = [] ∧
      t.monitorCalls = [MonitorCall.mk env.logLevel 0] ∧ ∀ a, step env t a = none) ∧
    (∀ s, Reachable env s →
      s.relays = [] ∧ s.infos = [] ∧ s.monitorCalls.length ≤ 1 ∧ s.errors.length ≤ 1 ∧
      ∀ c, s.pc = .exited c → c = 1 ∧ s.errors = ["Error starting monitor: " ++ e]) := by
  constructor
  · refine ⟨sOpenFail env e, ?_, rfl, rfl, rfl, rfl, rfl, ?_⟩
    · simp only [firstOpen] at ho
      simp [exec, step, supStep, init, hp, hc, ho, sOpenFail, sSpawn, sStart, sClient, firstOpen]
    · intro a
      cases a <;> simp [step, supStep, sOpenFail, sSpawn, sStart, sClient, init]
  · intro s hs
    rcases inv_reachable hs with hs | ⟨e1, he, hs⟩ | ⟨_, hs⟩ | ⟨e1, _, he, hs⟩ | ⟨_, _, hs⟩ |
      ⟨_, _, he, hs⟩ | ⟨e1, _, _, he, hs⟩ | hs
    · subst hs; simp [init]
    · rw [hp] at he; cases he
    · subst hs; simp [sClient, init]
    · rw [hc] at he; cases he
    · subst hs; simp [sStart, sClient, init]
    · rw [ho] at he; cases he
    · rw [ho] at he
      cases he
      subst hs
      simp [sOpenFail, sSpawn, sStart, sClient, init]
    · have := hs.openOk
      rw [ho] at this
      cases this

/-- Witness of C6 -/
theorem open_error_is_fatal_witness :
    (∃ t, exec refusedEnv init [.sup, .sup, .sup] = some t ∧ t.pc = .exited 1 ∧
      t.errors = ["Error starting monitor: " ++ "connection refused"] ∧ t.relays = [] ∧
      t.infos = [] ∧ t.monitorCalls = [MonitorCall.mk refusedEnv.logLevel 0] ∧
      ∀ a, step refusedEnv t a = none) ∧
    (∀ s, Reachable refusedEnv s →
      s.relays = [] ∧ s.infos = [] ∧ s.monitorCalls.length ≤ 1 ∧ s.errors.length ≤ 1 ∧
      ∀ c, s.pc = .exited c →
        c = 1 ∧ s.errors = ["Error starting monitor: " ++ "connection refused"]) :=
  open_error_is_fatal refusedEnv "connection refused" rfl rfl rfl

/-- C7: the exit codes.  Whenever `Run` has returned `c` in a reachable state,
one of four cases holds: the flags did not parse and `c = 1`; the client could
not be built, `c = 2` and `client.Sys().Monitor` was never called; the open
failed and `c = 1`; or none of these failed and `c = 0`.  Each error return
happens as soon as the supervisor has run up to it.  Taking `case <-signalCh`
returns 0, a step that makes `Run` return 0 is that one, and when nothing fails
a signal makes `Run` return 0. -/
theorem exit_codes (env : Env) :
    (∀ s c, Reachable env s → s.pc = .exited c →
      (env.parseErr ≠ none ∧ c = 1 ∧ s.monitorCalls = []) ∨
      (env.parseErr = none ∧ env.clientErr ≠ none ∧ c = 2 ∧ s.monitorCalls = []) ∨
      (env.parseErr = none ∧ env.clientErr = none ∧ (firstOpen env).err ≠ none ∧ c = 1) ∨
      (env.parseErr = none ∧ env.clientErr = none ∧ (firstOpen env).err = none ∧ c = 0)) ∧
    (env.parseErr ≠ none → ∃ t, exec env init [.sup] = some t ∧ t.pc = .exited 1) ∧
    (env.parseErr = none → env.clientErr ≠ none →
      ∃ t, exec env init [.sup, .sup] = some t ∧ t.pc = .exited 2 ∧ t.monitorCalls = []) ∧
    (env.parseErr = none → env.clientErr = none → (firstOpen env).err ≠ none →
      ∃ t, exec env init [.sup, .sup, .sup] = some t ∧ t.pc = .exited 1) ∧
    (env.parseErr = none → env.clientErr = none → (firstOpen env).err = none →
      ∃ t, exec env init (toWait ++ [.sig, .supSignal]) = some t ∧ t.pc = .exited 0) ∧
    (∀ s t, step env s .supSignal = some t → t.pc = .exited 0) ∧
    (∀ s a t, step env s a = some t → t.pc = .exited 0 →
      s.pc = .exited 0 ∨ a = .supSignal) := by
  refine ⟨?_, ?_, ?_, ?_, ?_, ?_, ?_⟩
  · intro s c hs hx
    rcases inv_reachable hs with hs | ⟨e1, he, hs⟩ | ⟨_, hs⟩ | ⟨e1, hp, he, hs⟩ | ⟨_, _, hs⟩ |
      ⟨_, _, _, hs⟩ | ⟨e1, hp, hc, he, hs⟩ | hs
    · subst hs; simp [init] at hx
    · subst hs
      simp only [sParseFail, Pc.exited.injEq] at hx
      exact Or.inl ⟨by simp [he], hx.symm, rfl⟩
    · subst hs; simp [sClient, init] at hx
    · subst hs
      simp only [sClientFail, Pc.exited.injEq] at hx
      exact Or.inr (Or.inl ⟨hp, by simp [he], hx.symm, rfl⟩)
    · subst hs; simp [sStart, sClient, init] at hx
    · subst hs; simp [sSpawn, sStart, sClient, init] at hx
    · subst hs
      simp only [sOpenFail, Pc.exited.injEq] at hx
      exact Or.inr (Or.inr (Or.inl ⟨hp, hc, by simp [he], hx.symm⟩))
    · refine Or.inr (Or.inr (Or.inr ⟨hs.parseOk, hs.clientOk, hs.openOk, ?_⟩))
      rcases hs.phase with ⟨h, _⟩ | ⟨h, _⟩
      · rw [h] at hx; cases hx
      · rw [h] at hx; cases hx; rfl
  · intro hp
    cases hpe : env.parseErr with
    | none => exact absurd hpe hp
    | some e => exact ⟨sParseFail e, by simp [exec, step, supStep, hpe, sParseFail, init], rfl⟩
  · intro hp hc
    cases hce : env.clientErr with
    | none => exact absurd hce hc
    | some e =>
      exact ⟨sClientFail env e,
        by simp [exec, step, supStep, hp, hce, sClientFail, sClient, init], rfl, rfl⟩
  · intro hp hc ho
    cases hoe : (firstOpen env).err with
    | none => exact absurd hoe ho
    | some e =>
      refine ⟨sOpenFail env e, ?_, rfl⟩
      simp only [firstOpen] at hoe
      simp [exec, step, supStep, init, hp, hc, hoe, sOpenFail, sSpawn, sStart, sClient,
        firstOpen]
  · intro hp hc ho
    rw [exec_append, exec_toWait env hp hc ho]
    exact ⟨{ sSpawn env with signalCh := 1, chans := 2, relays := [.running],
                             stopClosed := true, pc := .exited 0 },
      by simp [exec, step, sSpawn, sStart, sClient, init], rfl⟩
  · intro s t h
    simp only [step] at h
    split at h
    · simp only [Option.some.injEq] at h; subst h; rfl
    · simp at h
  · intro s a t h hz
    exact return_zero_only_by_signal h hz

/-- Witness of C7 -/
theorem exit_codes_witness :
    ((noClientEnv.parseErr ≠ none ∧ (2 : Int) = 1 ∧
        (sClientFail noClientEnv "bad address").monitorCalls = []) ∨
      (noClientEnv.parseErr = none ∧ noClientEnv.clientErr ≠ none ∧ (2 : Int) = 2 ∧
        (sClientFail noClientEnv "bad address").monitorCalls = []) ∨
      (noClientEnv.parseErr = none ∧ noClientEnv.clientErr = none ∧
        (firstOpen noClientEnv).err ≠ none ∧ (2 : Int) = 1) ∨
      (noClientEnv.parseErr = none ∧ noClientEnv.clientErr = none ∧
        (firstOpen noClientEnv).err = none ∧ (2 : Int) = 0)) ∧
    (∃ t, exec noClientEnv init [.sup, .sup] = some t ∧ t.pc = .exited 2 ∧
      t.monitorCalls = []) ∧
    (∃ t, exec refusedEnv init [.sup, .sup, .sup] = some t ∧ t.pc = .exited 1) ∧
    (∃ t, exec scenarioEnv init (toWait ++ [.sig, .supSignal]) = some t ∧ t.pc = .exited 0) :=
  ⟨(exit_codes noClientEnv).1 (sClientFail noClientEnv "bad address") 2
      ⟨[.sup, .sup], by decide⟩ rfl,
   (exit_codes noClientEnv).2.2.1 rfl (by decide),
   (exit_codes refusedEnv).2.2.2.1 rfl rfl (by decide),
   (exit_codes scenarioEnv).2.2.2.2.1 rfl rfl rfl⟩

/-- C8, evaluated on the code: in the scenario (severity `"DEBUG"`, first
subscription `"a"`, `"b"`, `""`, second subscription `"c"`, `""`, then a
signal) `Run` returns 0 with the sink holding `["a", "b"]` after a single
`Monitor` call; once the marker is received the supervisor cannot take
`case <-stopCh`; and under no schedule does the sink ever hold
`["a", "b", "c"]` or is `Monitor` called a second time. -/
theorem scenario_no_reopen :
    exec scenarioEnv init (scenarioFeed ++ [.sig, .supSignal]) = some scenarioEnd ∧
    scenarioEnd.infos = ["a", "b"] ∧ scenarioEnd.pc = .exited 0 ∧
    scenarioEnd.monitorCalls = [MonitorCall.mk "DEBUG" 0] ∧
    exec scenarioEnv init (scenarioFeed ++ [.supStop]) = none ∧
    (∀ s, Reachable scenarioEnv s → s.infos ≠ ["a", "b", "c"] ∧ s.monitorCalls.length ≤ 1) := by
  refine ⟨by decide, rfl, rfl, rfl, by decide, ?_⟩
  intro s hs
  have hinv := inv_reachable hs
  refine ⟨?_, (inv_calls_le hinv).1⟩
  intro hi
  rcases hinv with hs | ⟨e, he, hs⟩ | ⟨_, hs⟩ | ⟨e, _, _, hs⟩ | ⟨_, _, hs⟩ |
    ⟨_, _, _, hs⟩ | ⟨e, _, _, _, hs⟩ | hs
  all_goals first
    | (subst hs; simp [init, sParseFail, sClient, sClientFail, sStart, sSpawn, sOpenFail] at hi)
    | (have hsent := hs.sent
       rw [hi] at hsent
       revert hsent
       decide)

/-- Witness of C8's evaluation -/
theorem scenario_no_reopen_witness :
    scenarioEnd.infos ≠ ["a", "b", "c"] ∧ scenarioEnd.monitorCalls.length ≤ 1 :=
  scenario_no_reopen.2.2.2.2.2 scenarioEnd ⟨scenarioFeed ++ [.sig, .supSignal], by decide⟩

/-- C9: one subscription, one goroutine.  In every reachable state at most one
relay goroutine is in its loop, at most one `Monitor` call has been made and
there are no more goroutines than calls; while the supervisor waits there is
exactly one goroutine for the one subscription; and a step that calls
`Monitor` starts from a state without any goroutine. -/
theorem one_subscription (env : Env) (s : State) (hr : Reachable env s) :
    liveRelays s ≤ 1 ∧ s.monitorCalls.length ≤ 1 ∧
    s.relays.length ≤ s.monitorCalls.length ∧
    (s.pc = .wait → s.relays.length = 1 ∧ s.monitorCalls.length = 1) ∧
    (∀ a t, step env s a = some t → s.monitorCalls.length < t.monitorCalls.length →
      s.relays = [] ∧ liveRelays s = 0) := by
  have hinv := inv_reachable hr
  obtain ⟨h1, h2, h3, h4⟩ := inv_calls_le hinv
  refine ⟨h3, h1, h2, h4, ?_⟩
  intro a t hst hlt
  rcases hinv with hs | ⟨e, he, hs⟩ | ⟨_, hs⟩ | ⟨e, _, _, hs⟩ | ⟨_, _, hs⟩ |
    ⟨_, _, _, hs⟩ | ⟨e, _, _, _, hs⟩ | hs
  all_goals first
    | (subst hs
       simp [init, sParseFail, sClient, sClientFail, sStart, sSpawn, sOpenFail, liveRelays])
    | (have ht := streaming_step hs hst
       rw [hs.calls, ht.calls] at hlt
       exact absurd hlt (Nat.lt_irrefl _))

/-- Witness of C9 -/
theorem one_subscription_witness :
    liveRelays atWaitC3 ≤ 1 ∧ atWaitC3.monitorCalls.length ≤ 1 ∧
    atWaitC3.relays.length ≤ atWaitC3.monitorCalls.length ∧
    (atWaitC3.pc = .wait → atWaitC3.relays.length = 1 ∧ atWaitC3.monitorCalls.length = 1) ∧
    (∀ a t, step (envOf "INFO" [[""]]) atWaitC3 a = some t →
      atWaitC3.monitorCalls.length < t.monitorCalls.length →
      atWaitC3.relays = [] ∧ liveRelays atWaitC3 = 0) :=
  one_subscription (envOf "INFO" [[""]]) atWaitC3 ⟨toWait, by decide⟩

/-- C10: the reconnect branch is dead.  In every reachable state `stopCh` is
closed only if `Run` has returned; the supervisor's `case <-stopCh` is not
enabled; and `client.Sys().Monitor` has been called at most once, whatever the
Log Source delivers.  A step that closes `stopCh` is a step of the supervisor
that makes `Run` return (the deferred close); no step sends on it. -/
theorem stop_branch_dead (env : Env) (s : State) (hr : Reachable env s) :
    (s.stopClosed = true → ∃ c, s.pc = .exited c) ∧
    step env s .supStop = none ∧
    s.monitorCalls.length ≤ 1 ∧
    (∀ a t, step env s a = some t → s.stopClosed = false → t.stopClosed = true →
      (a = .sup ∨ a = .supSignal) ∧ ∃ c, t.pc = .exited c) := by
  have hinv := inv_reachable hr
  exact ⟨inv_stop_closed hinv, inv_supStop hinv, (inv_calls_le hinv).1,
    fun a t hst ho hc => close_only_on_return hst ho hc⟩

/-- Witness of C10 -/
theorem stop_branch_dead_witness :
    (markers.stopClosed = true → ∃ c, markers.pc = .exited c) ∧
    step (envOf "INFO" [["", "", ""]]) markers .supStop = none ∧
    markers.monitorCalls.length ≤ 1 ∧
    (∀ a t, step (envOf "INFO" [["", "", ""]]) markers a = some t →
      markers.stopClosed = false → t.stopClosed = true →
      (a = .sup ∨ a = .supSignal) ∧ ∃ c, t.pc = .exited c) :=
  stop_branch_dead (envOf "INFO" [["", "", ""]]) markers
    ⟨toWait ++ [.relayLog 0], by decide⟩

end Monitor
